import Mathlib

/-!
Verification development for the Steam economy-items module
(`steam/items.py`): a shallow embedding of the schema / item / attribute
resolution and formatting engine, together with theorems settling the
specification's claims about it.

Modelling conventions:
* JSON/Python scalar values are `JVal`; Python `None` (and JSON `null`) is
  `JVal.jnull`.  JSON numbers are modelled as exact fractions (`PyNum`,
  an integer numerator over a positive natural denominator); a number with
  denominator 1 models a Python `int`, any other a Python `float`.  Python
  float arithmetic agrees with exact fraction arithmetic on every value
  used in this development.
* A Python dict is modelled as an association list `Rec` whose lookup takes
  the first matching key.  `dict(a.items() + b.items())` (later items win)
  is therefore `b ++ a`.
* A raised exception that escapes the modelled code is `Option.none`
  (functions that can raise return `Option`).
-/

/-- A JSON/Python number as an exact fraction; `d` is positive for every
value built in this development (`d = 1` models a Python `int`). -/
structure PyNum where
  n : Int
  d : Nat
deriving DecidableEq, Repr

/-- The Python integer `k` as a number. -/
def PyNum.ofInt (k : Int) : PyNum := ⟨k, 1⟩

/-- Python `q * 100`. -/
def PyNum.mul100 (q : PyNum) : PyNum := ⟨q.n * 100, q.d⟩

/-- Python numeric equality `a == b` on numbers. -/
def PyNum.numEq (a b : PyNum) : Bool := decide (a.n * (b.d : Int) = b.n * (a.d : Int))

/-- Python `q > c` for an integer literal `c`. -/
def PyNum.gtInt (q : PyNum) (c : Int) : Bool := decide (q.n > c * (q.d : Int))

/-- Python 2 `round`: round half away from zero (composed with `int()`). -/
def pyRound (q : PyNum) : Int :=
  if 0 ≤ q.n then (2 * q.n + (q.d : Int)).fdiv (2 * q.d)
  else -(((q.d : Int) - 2 * q.n).fdiv (2 * q.d))

/-- Python `int()` truncation toward zero of a number. -/
def PyNum.trunc (q : PyNum) : Int := q.n.tdiv (q.d : Int)

/-- Whether the number is integral (`int(val) == val`). -/
def PyNum.isIntegral (q : PyNum) : Bool := decide (q.n.emod (q.d : Int) = 0)

inductive JVal where
  | jnum (q : PyNum)
  | jstr (s : String)
  | jbool (b : Bool)
  | jnull
deriving DecidableEq, Repr

/-- The JSON integer `k` as a value. -/
def jint (k : Int) : JVal := JVal.jnum (PyNum.ofInt k)

/-- Python `==` on scalar values: numbers (and booleans, which are numeric
in Python 2) compare numerically, strings compare as strings, `None` only
equals `None`, and values of unrelated types are unequal. -/
def pyValEq : JVal → JVal → Bool
  | JVal.jnum a, JVal.jnum b => a.numEq b
  | JVal.jnum a, JVal.jbool b => a.numEq (PyNum.ofInt (if b then 1 else 0))
  | JVal.jbool b, JVal.jnum a => (PyNum.ofInt (if b then 1 else 0)).numEq a
  | JVal.jbool a, JVal.jbool b => a = b
  | JVal.jstr a, JVal.jstr b => a = b
  | JVal.jnull, JVal.jnull => true
  | _, _ => false

/-- Python truthiness of a value (`if v:`). -/
def jtruthy : JVal → Bool
  | JVal.jnum q => q.n ≠ 0
  | JVal.jstr s => s ≠ ""
  | JVal.jbool b => b
  | JVal.jnull => false

/-- Extract a Python string; `none` models the `TypeError`/`AttributeError`
raised when a string operation is applied to a non-string. -/
def asString : JVal → Option String
  | JVal.jstr s => some s
  | _ => none

/-- A Python dict with scalar values, as an association list. -/
abbrev Rec := List (String × JVal)

/-- Dict lookup (`d[k]` / `d.get(k)`): value at the first matching key. -/
def Rec.get (r : Rec) (k : String) : Option JVal :=
  (r.find? (fun p => decide (p.1 = k))).map (·.2)

/-- Python `dict(a.items() + b.items())`: entries of `b` shadow entries of
`a` under first-match lookup. -/
def dictMerge (a b : Rec) : Rec := b ++ a

/-- Python `d[k] = v`. -/
def dictSet (r : Rec) (k : String) (v : JVal) : Rec :=
  (k, v) :: r.filter (fun p => decide (p.1 ≠ k))

/-- Python `==` of the values two dicts hold at a key (absent only equals
absent). -/
def optValEq : Option JVal → Option JVal → Bool
  | some a, some b => pyValEq a b
  | none, none => true
  | _, _ => false

/-- Python `==` on dicts: extensional equality of lookups over all keys of
either record. -/
def Rec.eqv (a b : Rec) : Bool :=
  (a.map Prod.fst ++ b.map Prod.fst).all fun k => optValEq (Rec.get a k) (Rec.get b k)

/-- Lookup in a dict keyed by JSON values (the schema indexes by defindex,
name and quality id); keys compare by Python `==`. -/
def lookupAssoc {α : Type} (l : List (JVal × α)) (k : JVal) : Option α :=
  (l.find? (fun p => pyValEq p.1 k)).map (·.2)

/-- Python 2 `int()` of a string: optional surrounding whitespace, optional
sign, one or more decimal digits; anything else raises `ValueError`. -/
def pyParseInt (s : String) : Option Int :=
  let cs := (s.data.dropWhile (fun c => c = ' ' ∨ c = '\t' ∨ c = '\n')).reverse
  let cs := (cs.dropWhile (fun c => c = ' ' ∨ c = '\t' ∨ c = '\n')).reverse
  let (sgn, ds) : Int × List Char :=
    match cs with
    | '-' :: rest => (-1, rest)
    | '+' :: rest => (1, rest)
    | rest => (1, rest)
  if ds ≠ [] ∧ ds.all Char.isDigit then
    some (sgn * (ds.foldl (fun acc c => acc * 10 + (c.toNat - '0'.toNat)) 0 : Nat))
  else
    none

/-- Python `int()` applied to a value: truncation toward zero for numbers,
`True`/`False` become 1/0, numeric strings parse, everything else raises
(`TypeError` for `None`, `ValueError` for non-numeric strings). -/
def pyInt : JVal → Option Int
  | JVal.jnum q => some q.trunc
  | JVal.jbool b => some (if b then 1 else 0)
  | JVal.jstr s => pyParseInt s
  | JVal.jnull => none

/-- Numeric content of a value as used by arithmetic such as `val * 100`;
booleans coerce to 0/1, strings and `None` raise `TypeError`. -/
def numVal : JVal → Option PyNum
  | JVal.jnum q => some q
  | JVal.jbool b => some (PyNum.ofInt (if b then 1 else 0))
  | _ => none

/-- Python 2 ordering of a value against an integer literal
(`self.get_value() > 1000000000`, `self.get_value_max() > 1`): numbers
compare numerically, strings compare greater than any integer,
`True`/`False` are 1/0, `None` is less than everything. -/
def pyGtIntLit (v : JVal) (c : Int) : Bool :=
  match v with
  | JVal.jnum q => q.gtInt c
  | JVal.jstr _ => true
  | JVal.jbool b => (PyNum.ofInt (if b then 1 else 0)).gtInt c
  | JVal.jnull => false

/-- Digits of the fractional part `num/den` (with `num < den`), when the
expansion terminates within the given fuel. -/
def decFracDigits : Nat → Nat → Nat → Option String
  | _, _, 0 => none
  | num, den, fuel + 1 =>
    if num = 0 then some ""
    else
      let num10 := num * 10
      (decFracDigits (num10 % den) den fuel).map
        (fun rest => toString (num10 / den) ++ rest)

/-- Python `str` of a JSON number.  Numbers with denominator 1 are Python
ints and print without a decimal point; other numbers print as their
(terminating) decimal expansion, which agrees with Python's rendering on
the values arising in this development. -/
def pyStrNum (q : PyNum) : String :=
  if q.d = 1 then toString q.n
  else
    let sgn := if q.n < 0 then "-" else ""
    let m := q.n.natAbs
    let ip := m / q.d
    match decFracDigits (m % q.d) q.d 40 with
    | some frac => sgn ++ toString ip ++ "." ++ frac
    | none => sgn ++ toString m ++ "/" ++ toString q.d

/-- Python `str(v)`. -/
def pyStr : JVal → String
  | JVal.jnum q => pyStrNum q
  | JVal.jstr s => s
  | JVal.jbool b => if b then "True" else "False"
  | JVal.jnull => "None"

/-- Whether `pat` is a prefix of `s`, character by character. -/
def charsStartWith : List Char → List Char → Bool
  | [], _ => true
  | _ :: _, [] => false
  | p :: ps, c :: cs => decide (p = c) && charsStartWith ps cs

/-- Whether `pat` occurs in `s`. -/
def charsContain (pat : List Char) : List Char → Bool
  | [] => charsStartWith pat []
  | c :: cs => charsStartWith pat (c :: cs) || charsContain pat cs

/-- Python `s.find(pat) != -1`. -/
def strFindB (s pat : String) : Bool := charsContain pat.data s.data

/-- Python slice `s[n:]` (drops the first `n` characters). -/
def pyDrop (s : String) (n : Nat) : String := String.mk (s.data.drop n)

/-- Left-to-right replacement of every occurrence of `pat` (nonempty) by
`rep`, fueled by the remaining length. -/
def pyReplaceAux (pat rep : List Char) : Nat → List Char → List Char
  | 0, s => s
  | _, [] => []
  | fuel + 1, c :: cs =>
    if charsStartWith pat (c :: cs) && !pat.isEmpty then
      rep ++ pyReplaceAux pat rep fuel ((c :: cs).drop pat.length)
    else
      c :: pyReplaceAux pat rep fuel cs

/-- Python `s.replace(pat, rep)`: every non-overlapping occurrence,
scanning left to right. -/
def pyReplace (s pat rep : String) : String :=
  String.mk (pyReplaceAux pat.data rep.data s.data.length s.data)

/-- Python list indexing `xs[i]`: negative indices count from the end;
`none` models `IndexError`. -/
def pyIndex {α : Type} (xs : List α) (i : Int) : Option α :=
  if 0 ≤ i then xs.get? i.toNat
  else if (-i).toNat ≤ xs.length then xs.get? (xs.length - (-i).toNat)
  else none

/-- Civil date from days since the Unix epoch (proleptic Gregorian),
returned as (year, month, day). -/
def civilFromDays (z0 : Int) : Int × Int × Int :=
  let z := z0 + 719468
  let era := z.fdiv 146097
  let doe := z - era * 146097
  let yoe := (doe - doe.fdiv 1460 + doe.fdiv 36524 - doe.fdiv 146096).fdiv 365
  let y := yoe + era * 400
  let doy := doe - (365 * yoe + yoe.fdiv 4 - yoe.fdiv 100)
  let mp := (5 * doy + 2).fdiv 153
  let d := doy - (153 * mp + 2).fdiv 5 + 1
  let m := mp + (if mp < 10 then 3 else -9)
  (y + (if m ≤ 2 then 1 else 0), m, d)

/-- Zero-pad a nonnegative integer to the given width. -/
def padInt (width : Nat) (n : Int) : String :=
  let s := toString n.natAbs
  let pad := String.mk (List.replicate (width - s.length) '0')
  (if n < 0 then "-" else "") ++ pad ++ s

/-- `time.strftime("%F %H:%M:%S", time.gmtime(t))`: a Unix timestamp as a
UTC `YYYY-MM-DD HH:MM:SS` string. -/
def gmtimeFormat (t : Int) : String :=
  let days := t.fdiv 86400
  let secs := t.emod 86400
  let ymd := civilFromDays days
  padInt 4 ymd.1 ++ "-" ++ padInt 2 ymd.2.1 ++ "-" ++ padInt 2 ymd.2.2 ++ " " ++
    padInt 2 (secs / 3600) ++ ":" ++ padInt 2 (secs / 60 % 60) ++ ":" ++ padInt 2 (secs % 60)


/-- A raw item record (a JSON dict): its scalar fields, plus the two
list-valued keys the code reads, kept apart from the scalar fields
(`attributes` is the list of attribute-override dicts under the
`"attributes"` key, `styles` the list of style dicts under `"styles"`;
`none` means the key is absent). -/
structure RawItem where
  fields : Rec
  attributes : Option (List Rec)
  styles : Option (List Rec)
deriving DecidableEq, Repr

/-- Python `==` of two lists of dicts. -/
def recListEqv : List Rec → List Rec → Bool
  | [], [] => true
  | a :: as_, b :: bs => Rec.eqv a b && recListEqv as_ bs
  | _, _ => false

/-- Python `==` of an optional list-valued entry (absent only equals
absent). -/
def optRecListEqv : Option (List Rec) → Option (List Rec) → Bool
  | some a, some b => recListEqv a b
  | none, none => true
  | _, _ => false

/-- Python `==` on item dicts. -/
def RawItem.pyEq (a b : RawItem) : Bool :=
  Rec.eqv a.fields b.fields && optRecListEqv a.attributes b.attributes &&
    optRecListEqv a.styles b.styles

/-- Python truthiness of an item dict (`not self._schema_item`): a dict is
falsy exactly when it has no keys at all. -/
def RawItem.truthy (r : RawItem) : Bool :=
  !r.fields.isEmpty || r.attributes.isSome || r.styles.isSome

/-- The schema catalog after `schema.__init__` has indexed the fetched
JSON: `_attributes` (defindex → attribute dict), `_attribute_names`
(name → defindex), `_items` (defindex → item dict), `_qualities`
(numeric id → `{id, str, prettystr}` dict) and the stored language. -/
structure Schema where
  attributes : List (JVal × Rec)
  attribute_names : List (JVal × JVal)
  items : List (JVal × RawItem)
  qualities : List (JVal × Rec)
  language : String

/-- Invariant `schema.__init__` establishes on `_items`: every stored
definition is stored under the value of its own `defindex` field (hence is
a nonempty dict). -/
def Schema.itemsWF (s : Schema) : Prop :=
  ∀ p ∈ s.items, Rec.get p.2.fields "defindex" = some p.1

/-- A resolved item view: the instance record `_item` and the schema
record `_schema_item` chosen by `item.__init__` (the owning schema is
passed to each method explicitly). -/
structure Item where
  _item : RawItem
  _schema_item : RawItem
deriving DecidableEq, Repr

/-- `item.__init__` / `schema.create_item`: the schema record is the
instance itself when it carries an `item_name` key, otherwise the catalog
definition found under the instance's `defindex` (a missing `defindex`
key or a failed lookup is swallowed); a falsy schema record raises
`ItemError` (`none`). -/
def create_item (s : Schema) (oitem : RawItem) : Option Item :=
  let sitem : Option RawItem :=
    if (Rec.get oitem.fields "item_name").isSome then some oitem
    else
      match Rec.get oitem.fields "defindex" with
      | none => none
      | some d => lookupAssoc s.items d
  match sitem with
  | some si => if si.truthy then some ⟨oitem, si⟩ else none
  | none => none

/-- `item.get_schema_id`: `self._item["defindex"]` (raises on a missing
key). -/
def get_schema_id (it : Item) : Option JVal :=
  Rec.get it._item.fields "defindex"

/-- `item.get_quality`: quality id from the instance, else the
definition's `item_quality`, else 0; resolved against the schema's
qualities with a sentinel fallback. -/
def get_quality (s : Schema) (it : Item) : Rec :=
  let qid := (Rec.get it._item.fields "quality").getD
    ((Rec.get it._schema_item.fields "item_quality").getD (jint 0))
  match lookupAssoc s.qualities qid with
  | some q => q
  | none => [("id", jint 0), ("prettystr", JVal.jstr "Broken"), ("str", JVal.jstr "ohnoes")]

/-- `item.get_inventory_token`: `self._item.get("inventory", 0)`. -/
def get_inventory_token (it : Item) : JVal :=
  (Rec.get it._item.fields "inventory").getD (jint 0)

/-- `item.get_position`: -1 when the token equals 0, else the token's low
16 bits; `none` models the `TypeError` of `&` on a non-integer token. -/
def get_position (it : Item) : Option Int :=
  match get_inventory_token it with
  | JVal.jnum q => if q.n = 0 then some (-1) else if q.d = 1 then some (q.n.emod 65536) else none
  | JVal.jbool b => if b then some 1 else some (-1)
  | _ => none

/-- `item.get_custom_name`: `self._item.get("custom_name")`. -/
def get_custom_name (it : Item) : Option JVal :=
  Rec.get it._item.fields "custom_name"

/-- `item.is_name_prefixed`: `self._schema_item.get("proper_name", False)`
under Python truthiness. -/
def is_name_prefixed (it : Item) : Bool :=
  match Rec.get it._schema_item.fields "proper_name" with
  | some v => jtruthy v
  | none => false

/-- `item.get_styles`: the `"name"` entry of each style dict; a falsy (or
absent) styles list gives `[]`, a style dict without a name raises. -/
def get_styles (it : Item) : Option (List JVal) :=
  match it._schema_item.styles with
  | none => some []
  | some styles =>
    if styles.isEmpty then some []
    else styles.mapM (fun st => Rec.get st "name")

/-- `item.get_current_style_id`: `self._item.get("style")`. -/
def get_current_style_id (it : Item) : Option JVal :=
  Rec.get it._item.fields "style"

/-- `item.get_current_style_name`: a falsy style id falls through (Python
`None`, the inner `some none`); a truthy id indexes the styles list,
`IndexError` returns the raw id, a non-integer truthy id raises
(`TypeError`, the outer `none`). -/
def get_current_style_name (it : Item) : Option (Option JVal) :=
  match get_current_style_id it with
  | none => some none
  | some sid =>
    if ¬ jtruthy sid then some none
    else
      match sid with
      | JVal.jnum q =>
        if q.d = 1 then
          match get_styles it with
          | none => none
          | some names =>
            match pyIndex names q.n with
            | some nm => some (some nm)
            | none => some (some sid)
        else none
      | JVal.jbool _ =>
        match get_styles it with
        | none => none
        | some names =>
          match pyIndex names 1 with
          | some nm => some (some nm)
          | none => some (some sid)
      | _ => none

/-- `item.get_full_item_name(prefixes)`: quality-aware display-name
construction (the `prefixes` argument is either Python `None` — prefixes
suppressed — or a dict from non-localized quality names to an alternate
display value, itself possibly `None`).  The display value held by the
local variable of the source is an `Option JVal` whose `none` is Python
`None`.  `none` overall models a raised exception (missing quality keys,
a non-string item or custom name, a non-string rendered display value). -/
def get_full_item_name (s : Schema) (it : Item)
    (prefixes : Option (List (String × Option String))) : Option String := do
  let q := get_quality s it
  let qualityStr ← Rec.get q "str"
  let prettyStr ← Rec.get q "prettystr"
  let customName := (get_custom_name it).getD JVal.jnull
  let nameVal ← Rec.get it._schema_item.fields "item_name"
  let itemName0 ← asString nameVal
  let itemName1 :=
    if strFindB itemName0 "The " && is_name_prefixed it then pyDrop itemName0 4
    else itemName0
  let itemName2 ←
    if jtruthy customName then asString customName else pure itemName1
  let p1 : Option JVal :=
    match prefixes with
    | none => some (JVal.jstr "")
    | some pd =>
      match qualityStr with
      | JVal.jstr qs =>
        match pd.find? (fun e => decide (e.1 = qs)) with
        | some e => e.2.map JVal.jstr
        | none => some prettyStr
      | _ => some prettyStr
  let p2 :=
    if prefixes.isNone || jtruthy customName ||
        (!is_name_prefixed it && pyValEq qualityStr (JVal.jstr "unique")) then
      some (JVal.jstr "")
    else p1
  let p3 :=
    if (prefixes.isNone || decide (s.language ≠ "en")) &&
        (pyValEq qualityStr (JVal.jstr "unique") || pyValEq qualityStr (JVal.jstr "normal")) then
      some (JVal.jstr "")
    else p2
  let pTruthy := match p3 with
    | none => false
    | some v => jtruthy v
  if decide (s.language ≠ "en") && pTruthy then do
    let ps ← p3.bind asString
    pure (itemName2 ++ " (" ++ ps ++ ")")
  else if pTruthy then do
    let ps ← p3.bind asString
    pure (ps ++ " " ++ itemName2)
  else
    pure itemName2

/-- `item_attribute.get_value_type`: the `description_format` entry with
its fixed 9-character `"value_is_"` head sliced off; a missing key yields
Python `None` (the inner `none`), a non-string entry raises `TypeError`
(the outer `none`). -/
def get_value_type (a : Rec) : Option (Option String) :=
  match Rec.get a "description_format" with
  | none => some none
  | some (JVal.jstr s) => some (some (pyDrop s 9))
  | some _ => none

/-- `item_attribute.get_value_formatted(value)`: dispatch on the value
type; `value = none` models calling with no argument (and a passed Python
`None` falls back to the record's own value, as in the source). -/
def get_value_formatted (a : Rec) (value : Option JVal) : Option String := do
  let val : JVal := match value with
    | none => (Rec.get a "value").getD JVal.jnull
    | some v => if v = JVal.jnull then (Rec.get a "value").getD JVal.jnull else v
  let fattr := pyStr val
  let ftype ← get_value_type a
  if ftype = some "percentage" then do
    let q ← numVal val
    let p := pyRound q.mul100
    let et ← Rec.get a "effect_type"
    let pval := if pyValEq et (JVal.jstr "negative") then 0 - (100 - p) else p - 100
    pure (toString pval)
  else if ftype = some "additive_percentage" then do
    let q ← numVal val
    pure (toString (pyRound q.mul100))
  else if ftype = some "inverted_percentage" then do
    let q ← numVal val
    let p0 := 100 - pyRound q.mul100
    let et ← Rec.get a "effect_type"
    if pyValEq et (JVal.jstr "negative") then do
      let mx ← Rec.get a "max_value"
      if pyGtIntLit mx 1 then pure (toString (0 - p0)) else pure (toString p0)
    else pure (toString p0)
  else if ftype = some "additive" ∨ ftype = some "particle_index" ∨ ftype = some "account_id" then
    match val with
    | JVal.jnum q => if q.isIntegral then pure (toString q.trunc) else pure fattr
    | JVal.jbool b => pure (toString (if b then (1 : Int) else 0))
    | JVal.jstr st => if (pyParseInt st).isSome then pure fattr else none
    | JVal.jnull => none
  else if ftype = some "date" then do
    let t ← pyInt val
    pure (gmtimeFormat t)
  else
    pure fattr

/-- `item_attribute.get_description_formatted`: the value type is computed
(and can raise) before the description is inspected; a falsy description
yields Python `None` (the inner `none`), otherwise every `"%s1"` in it is
replaced by the formatted value. -/
def get_description_formatted (a : Rec) : Option (Option String) := do
  let _ ← get_value_type a
  let desc := (Rec.get a "description_string").getD JVal.jnull
  if ¬ jtruthy desc then pure none
  else
    match desc with
    | JVal.jstr d => do
      let v ← get_value_formatted a none
      pure (some (pyReplace d "%s1" v))
    | _ => none

/-- `item_attribute.__init__`: the construction-time normalization.  A
missing or `None` value makes `int()` raise `TypeError`, which the
`except TypeError` swallows, leaving the record untouched; a non-numeric
string value makes `int()` raise `ValueError`, which nothing catches
(`none`).  After a successful `int()`: a missing `name` raises `KeyError`
(`none`); the `"tradable after date"` attribute has its
`description_format` forced to `"value_is_date"`; then, unless reading
the value type raises `TypeError` (swallowed, keeping the first
mutation), a non-date value above 1000000000 with a `float_value` entry
present is replaced by that entry. -/
def item_attribute_init (a : Rec) : Option Rec :=
  let val := (Rec.get a "value").getD JVal.jnull
  match pyInt val with
  | none =>
    match val with
    | JVal.jstr _ => none
    | _ => some a
  | some _ =>
    match Rec.get a "name" with
    | none => none
    | some nameV =>
      let a1 :=
        if pyValEq nameV (JVal.jstr "tradable after date") then
          dictSet a "description_format" (JVal.jstr "value_is_date")
        else a
      match get_value_type a1 with
      | none => some a1
      | some vt =>
        if vt ≠ some "date" ∧ pyGtIntLit val 1000000000 then
          match Rec.get a1 "float_value" with
          | some fv => some (dictSet a1 "value" fv)
          | none => some a1
        else some a1

/-- `schema.get_raw_attributes(item)`: the item-definition's declared
attribute overrides (any `KeyError` while locating them yields `[]`),
each merged over the global attribute definition found via
`_attribute_names` and `_attributes` (overrides win); a failing name or
id lookup raises `KeyError` (`none`). -/
def get_raw_attributes_item (s : Schema) (it : Item) : Option (List Rec) :=
  let attrs : List Rec :=
    match Rec.get it._item.fields "defindex" with
    | none => []
    | some d =>
      match lookupAssoc s.items d with
      | none => []
      | some sitem => sitem.attributes.getD []
  attrs.mapM (fun specattr => do
    let nameV ← Rec.get specattr "name"
    let attrid ← lookupAssoc s.attribute_names nameV
    let attrdict ← lookupAssoc s.attributes attrid
    pure (dictMerge attrdict specattr))

/-- The inner loop of `item.get_attributes`: the first instance attribute
whose `defindex` equals the given schema attribute's (`KeyError` on a
missing `defindex` on either side, the outer `none`). -/
def findMatch (a : Rec) : List Rec → Option (Option Rec)
  | [] => some none
  | i :: rest =>
    match Rec.get a "defindex", Rec.get i "defindex" with
    | some da, some di =>
      if pyValEq da di then some (some i) else findMatch a rest
    | _, _ => none

/-- The first pass of `item.get_attributes`: for each schema attribute in
order, the merge with its first matching instance attribute (instance
fields win) or the schema attribute as-is; also returns the list of
consumed instance attributes. -/
def matchPass (item_attrs : List Rec) : List Rec → Option (List Rec × List Rec)
  | [] => some ([], [])
  | a :: rest => do
    let found ← findMatch a item_attrs
    let tail ← matchPass item_attrs rest
    match found with
    | some i => pure (dictMerge a i :: tail.1, i :: tail.2)
    | none => pure (a :: tail.1, tail.2)

/-- The second pass of `item.get_attributes`: every instance attribute not
consumed by the first pass (membership by Python dict equality), merged
over its global attribute definition (a failing lookup raises `KeyError`,
`none`). -/
def secondPass (s : Schema) (used : List Rec) : List Rec → Option (List Rec)
  | [] => some []
  | i :: rest =>
    if used.any (fun u => Rec.eqv i u) then secondPass s used rest
    else do
      let d ← Rec.get i "defindex"
      let attrdict ← lookupAssoc s.attributes d
      let tail ← secondPass s used rest
      pure (dictMerge attrdict i :: tail)

/-- `item.get_attributes` up to the final `item_attribute` wrapping: the
merged `final_attrs` list.  Instance attributes take part only when the
instance record differs from the schema record (Python `!=` on dicts). -/
def get_attributes_recs (s : Schema) (it : Item) : Option (List Rec) := do
  let schema_attrs ← get_raw_attributes_item s it
  let item_attrs : List Rec :=
    if RawItem.pyEq it._item it._schema_item then []
    else (it._item.attributes).getD []
  let firstPass ← matchPass item_attrs schema_attrs
  let part2 ← secondPass s firstPass.2 item_attrs
  pure (firstPass.1 ++ part2)

/-- `item.get_attributes` in full: every merged record passed through the
`item_attribute` constructor (whose normalization may raise). -/
def get_attributes (s : Schema) (it : Item) : Option (List Rec) := do
  let finals ← get_attributes_recs s it
  finals.mapM item_attribute_init

/-- `pyValEq` is reflexive. -/
theorem pyValEq_refl (v : JVal) : pyValEq v v = true := by
  cases v <;> simp [pyValEq, PyNum.numEq]

/-- C2: for a percentage attribute with value 1.15 the formatted value is
"15" for effect type "positive", but — contrary to the claim — it is also
"15" (not "-85") for effect type "negative": the negative branch
`0 - (100 - pval)` equals `pval - 100`. -/
theorem c2_percentage_counterexample :
    get_value_formatted
      [("description_format", JVal.jstr "value_is_percentage"),
       ("effect_type", JVal.jstr "negative"), ("value", JVal.jnum ⟨23, 20⟩)] none
      = some "15" ∧ some ("15" : String) ≠ some ("-85" : String) := by
  constructor
  · decide
  · decide

/-- C2 (amended): for a percentage attribute with value 1.15 the formatted
value is "15" when the effect type is "positive", and also "15" when the
effect type is "negative". -/
theorem c2_percentage_amended :
    get_value_formatted
      [("description_format", JVal.jstr "value_is_percentage"),
       ("effect_type", JVal.jstr "positive"), ("value", JVal.jnum ⟨23, 20⟩)] none
      = some "15" ∧
    get_value_formatted
      [("description_format", JVal.jstr "value_is_percentage"),
       ("effect_type", JVal.jstr "negative"), ("value", JVal.jnum ⟨23, 20⟩)] none
      = some "15" := by
  constructor
  · decide
  · decide

/-- C10: for every numeric value and every effect type, formatting a
percentage attribute returns `str(round(value*100) - 100)`; the negative
branch `-(100 - pct)` equals the positive branch `pct - 100`, so the
effect type never changes the result. -/
theorem c10_percentage_effect_type_irrelevant (a : Rec) (q : PyNum) (et : JVal)
    (hf : Rec.get a "description_format" = some (JVal.jstr "value_is_percentage"))
    (hv : Rec.get a "value" = some (JVal.jnum q))
    (he : Rec.get a "effect_type" = some et) :
    get_value_formatted a none = some (toString (pyRound q.mul100 - 100)) := by
  have hd : pyDrop "value_is_percentage" 9 = "percentage" := by decide
  have hft : get_value_type a = some (some "percentage") := by
    simp [get_value_type, hf, hd]
  simp only [get_value_formatted, hv, hft, he, Option.getD_some]
  cases hneg : pyValEq et (JVal.jstr "negative")
  · simp [hneg, Option.bind, bind, numVal]
  · simp [hneg, Option.bind, bind, numVal]

/-- Witness for C10 at value 1.5 with effect type "neutral". -/
theorem c10_percentage_effect_type_irrelevant_witness :
    Rec.get [("description_format", JVal.jstr "value_is_percentage"),
             ("effect_type", JVal.jstr "neutral"), ("value", JVal.jnum ⟨3, 2⟩)]
        "description_format" = some (JVal.jstr "value_is_percentage") ∧
    get_value_formatted
      [("description_format", JVal.jstr "value_is_percentage"),
       ("effect_type", JVal.jstr "neutral"), ("value", JVal.jnum ⟨3, 2⟩)] none
      = some (toString (pyRound (PyNum.mul100 ⟨3, 2⟩) - 100)) :=
  ⟨by decide,
   c10_percentage_effect_type_irrelevant _ ⟨3, 2⟩ (JVal.jstr "neutral")
     (by decide) (by decide) (by decide)⟩

/-- C8: the inventory token defaults to 0 when absent, and the position is
-1 when the token is 0 and otherwise the token's low 16 bits. -/
theorem c8_position_spec (it : Item) :
    (Rec.get it._item.fields "inventory" = none →
      get_inventory_token it = jint 0 ∧ get_position it = some (-1)) ∧
    (∀ n : Int, Rec.get it._item.fields "inventory" = some (jint n) →
      get_position it = some (if n = 0 then -1 else n.emod 65536)) := by
  constructor
  · intro h
    refine ⟨by simp [get_inventory_token, h], ?_⟩
    simp [get_position, get_inventory_token, h, jint, PyNum.ofInt]
  · intro n h
    by_cases hn : n = 0
    · simp [get_position, get_inventory_token, h, hn, jint, PyNum.ofInt]
    · simp [get_position, get_inventory_token, h, hn, jint, PyNum.ofInt]

/-- Witness for C8: token 65540 gives position 4, an absent token gives
position -1. -/
theorem c8_position_spec_witness :
    get_position ⟨⟨[("inventory", jint 65540)], none, none⟩, ⟨[], none, none⟩⟩ = some 4 ∧
    get_position ⟨⟨[], none, none⟩, ⟨[], none, none⟩⟩ = some (-1) := by
  constructor
  · have h := (c8_position_spec ⟨⟨[("inventory", jint 65540)], none, none⟩,
      ⟨[], none, none⟩⟩).2 65540 (by decide)
    rw [h]
    decide
  · exact ((c8_position_spec ⟨⟨[], none, none⟩, ⟨[], none, none⟩⟩).1 rfl).2

/-- C7: the quality id is the instance's quality field if present, else
the definition's item_quality, else 0; it is looked up in the catalog's
qualities, an absent id falling back to the sentinel quality
`{id: 0, str: "ohnoes", prettystr: "Broken"}`, so the lookup never
fails. -/
theorem c7_quality_spec (s : Schema) (it : Item) :
    (∀ v, Rec.get it._item.fields "quality" = some v →
      get_quality s it = (lookupAssoc s.qualities v).getD
        [("id", jint 0), ("prettystr", JVal.jstr "Broken"), ("str", JVal.jstr "ohnoes")]) ∧
    (Rec.get it._item.fields "quality" = none →
      (∀ w, Rec.get it._schema_item.fields "item_quality" = some w →
        get_quality s it = (lookupAssoc s.qualities w).getD
          [("id", jint 0), ("prettystr", JVal.jstr "Broken"), ("str", JVal.jstr "ohnoes")]) ∧
      (Rec.get it._schema_item.fields "item_quality" = none →
        get_quality s it = (lookupAssoc s.qualities (jint 0)).getD
          [("id", jint 0), ("prettystr", JVal.jstr "Broken"), ("str", JVal.jstr "ohnoes")])) := by
  refine ⟨fun v hv => ?_, fun hq => ⟨fun w hw => ?_, fun hw => ?_⟩⟩
  · cases h : lookupAssoc s.qualities v <;> simp [get_quality, hv, h]
  · cases h : lookupAssoc s.qualities w <;> simp [get_quality, hq, hw, h]
  · cases h : lookupAssoc s.qualities (jint 0) <;> simp [get_quality, hq, hw, h]

/-- Witness for C7: an instance quality id 8 found in the catalog, and an
unknown id 42 falling back to the sentinel. -/
theorem c7_quality_spec_witness :
    get_quality
      ⟨[], [], [], [(jint 8, [("id", jint 8), ("str", JVal.jstr "developer"),
        ("prettystr", JVal.jstr "Valve")])], "en"⟩
      ⟨⟨[("quality", jint 8)], none, none⟩, ⟨[], none, none⟩⟩
      = [("id", jint 8), ("str", JVal.jstr "developer"), ("prettystr", JVal.jstr "Valve")] ∧
    get_quality
      ⟨[], [], [], [(jint 8, [("id", jint 8), ("str", JVal.jstr "developer"),
        ("prettystr", JVal.jstr "Valve")])], "en"⟩
      ⟨⟨[("quality", jint 42)], none, none⟩, ⟨[], none, none⟩⟩
      = [("id", jint 0), ("prettystr", JVal.jstr "Broken"), ("str", JVal.jstr "ohnoes")] := by
  constructor
  · have h := (c7_quality_spec
      ⟨[], [], [], [(jint 8, [("id", jint 8), ("str", JVal.jstr "developer"),
        ("prettystr", JVal.jstr "Valve")])], "en"⟩
      ⟨⟨[("quality", jint 8)], none, none⟩, ⟨[], none, none⟩⟩).1 (jint 8) (by decide)
    rw [h]
    decide
  · have h := (c7_quality_spec
      ⟨[], [], [], [(jint 8, [("id", jint 8), ("str", JVal.jstr "developer"),
        ("prettystr", JVal.jstr "Valve")])], "en"⟩
      ⟨⟨[("quality", jint 42)], none, none⟩, ⟨[], none, none⟩⟩).1 (jint 42) (by decide)
    rw [h]
    decide


/-- A dict holding a value at some key is truthy. -/
theorem RawItem.truthy_of_get {r : RawItem} {k : String} {v : JVal}
    (h : Rec.get r.fields k = some v) : r.truthy = true := by
  cases hf : r.fields with
  | nil => rw [hf] at h; simp [Rec.get] at h
  | cons p rest => simp [RawItem.truthy, hf]

/-- A successful keyed lookup comes from an entry of the list whose key
compares equal. -/
theorem lookupAssoc_mem {α : Type} {l : List (JVal × α)} {k : JVal} {v : α}
    (h : lookupAssoc l k = some v) : ∃ p ∈ l, p.2 = v ∧ pyValEq p.1 k = true := by
  unfold lookupAssoc at h
  cases hf : l.find? (fun p => pyValEq p.1 k) with
  | none => rw [hf] at h; simp at h
  | some p =>
    rw [hf] at h
    simp only [Option.map_some'] at h
    refine ⟨p, List.mem_of_find?_eq_some hf, Option.some.inj h, ?_⟩
    have := List.find?_some hf
    simpa using this

/-- A keyed lookup under a key present in the list succeeds. -/
theorem lookupAssoc_isSome_of_mem {α : Type} {l : List (JVal × α)} {d : JVal} {v : α}
    (h : (d, v) ∈ l) : (lookupAssoc l d).isSome := by
  unfold lookupAssoc
  cases hf : l.find? (fun p => pyValEq p.1 d) with
  | none =>
    exfalso
    have := List.find?_eq_none.mp hf (d, v) h
    simp [pyValEq_refl] at this
  | some p => simp

/-- C3: `create_item` fails (with `ItemError`) exactly when the record
lacks an `item_name` field and its defindex finds no definition in the
catalog; and for every definition loaded into a well-formed catalog,
`create_item` succeeds on it and the resulting view's schema id is the
defindex it is stored under. -/
theorem c3_create_item_spec (s : Schema) (hwf : s.itemsWF) :
    (∀ r : RawItem, create_item s r = none ↔
      (Rec.get r.fields "item_name" = none ∧
        ∀ d, Rec.get r.fields "defindex" = some d → lookupAssoc s.items d = none)) ∧
    (∀ d r, (d, r) ∈ s.items →
      ∃ w, create_item s r = some w ∧ get_schema_id w = some d) := by
  constructor
  · intro r
    cases hin : Rec.get r.fields "item_name" with
    | some v =>
      have ht := RawItem.truthy_of_get hin
      have hcreate : create_item s r = some ⟨r, r⟩ := by simp [create_item, hin, ht]
      rw [hcreate]
      simp
    | none =>
      cases hd : Rec.get r.fields "defindex" with
      | none => simp [create_item, hin, hd]
      | some d =>
        cases hl : lookupAssoc s.items d with
        | none =>
          simp only [create_item, hin, hd, hl]
          constructor
          · intro _
            refine ⟨trivial, fun d' hd' => ?_⟩
            injection hd' with h
            rw [← h]
            exact hl
          · intro _
            simp
        | some si =>
          obtain ⟨p, hpmem, hpv, hpk⟩ := lookupAssoc_mem hl
          have ht : si.truthy = true := by
            rw [← hpv]
            exact RawItem.truthy_of_get (hwf p hpmem)
          have hcreate : create_item s r = some ⟨r, si⟩ := by
            simp [create_item, hin, hd, hl, ht]
          rw [hcreate]
          constructor
          · intro h
            cases h
          · rintro ⟨-, hall⟩
            have h2 := hall d rfl
            rw [h2] at hl
            exact Option.noConfusion hl
  · intro d r hmem
    have hdef : Rec.get r.fields "defindex" = some d := hwf (d, r) hmem
    cases hin : Rec.get r.fields "item_name" with
    | some v =>
      have ht := RawItem.truthy_of_get hin
      exact ⟨⟨r, r⟩, by simp [create_item, hin, ht], by simp [get_schema_id, hdef]⟩
    | none =>
      have hsome : (lookupAssoc s.items d).isSome := lookupAssoc_isSome_of_mem hmem
      obtain ⟨si, hsi⟩ := Option.isSome_iff_exists.mp hsome
      obtain ⟨p, hpmem, hpv, hpk⟩ := lookupAssoc_mem hsi
      have ht : si.truthy = true := by
        rw [← hpv]
        exact RawItem.truthy_of_get (hwf p hpmem)
      exact ⟨⟨r, si⟩, by simp [create_item, hin, hdef, hsi, ht], by simp [get_schema_id, hdef]⟩

/-- Witness for C3 on a one-definition catalog. -/
theorem c3_create_item_spec_witness :
    Schema.itemsWF ⟨[], [],
      [(jint 1, ⟨[("defindex", jint 1), ("item_name", JVal.jstr "Axe")], none, none⟩)],
      [], "en"⟩ ∧
    ∃ w, create_item
        ⟨[], [],
          [(jint 1, ⟨[("defindex", jint 1), ("item_name", JVal.jstr "Axe")], none, none⟩)],
          [], "en"⟩
        ⟨[("defindex", jint 1), ("item_name", JVal.jstr "Axe")], none, none⟩ = some w ∧
      get_schema_id w = some (jint 1) := by
  have hwf : Schema.itemsWF ⟨[], [],
      [(jint 1, ⟨[("defindex", jint 1), ("item_name", JVal.jstr "Axe")], none, none⟩)],
      [], "en"⟩ := by
    unfold Schema.itemsWF
    decide
  exact ⟨hwf, (c3_create_item_spec _ hwf).2 (jint 1) _ (by decide)⟩

/-- C5: counterexample — with value 3 (formatted "3") and description
"%s1 and %s1", the code replaces BOTH occurrences ("3 and 3"), not only
the first ("3 and %s1") as the claim states. -/
theorem c5_description_counterexample :
    get_description_formatted
      [("value", jint 3), ("description_format", JVal.jstr "value_is_additive"),
       ("description_string", JVal.jstr "%s1 and %s1")]
      = some (some "3 and 3") ∧
    some (some ("3 and 3" : String)) ≠ some (some ("3 and %s1" : String)) :=
  ⟨by decide, by decide⟩

/-- C5 (amended): `get_description_formatted` substitutes EVERY `%s1`
token in the description with the formatted value, and returns nothing
(Python `None`) when the record has no description string (provided the
value-type read that precedes the description check does not raise). -/
theorem c5_description_formatted_amended (a : Rec) :
    (∀ d v, Rec.get a "description_string" = some (JVal.jstr d) → d ≠ "" →
      get_value_formatted a none = some v →
      get_description_formatted a = some (some (pyReplace d "%s1" v))) ∧
    (Rec.get a "description_string" = none → (get_value_type a).isSome →
      get_description_formatted a = some none) := by
  constructor
  · intro d v hd hne hv
    cases hft : get_value_type a with
    | none =>
      rw [get_value_formatted] at hv
      simp [hft] at hv
    | some ft =>
      simp [get_description_formatted, hft, hd, jtruthy, hne, hv]
  · intro hd hvt
    obtain ⟨ft, hft⟩ := Option.isSome_iff_exists.mp hvt
    simp [get_description_formatted, hft, hd, jtruthy]

/-- Witness for C5 (amended) with description "+%s1 health" and value
25. -/
theorem c5_description_formatted_amended_witness :
    Rec.get [("value", jint 25), ("description_format", JVal.jstr "value_is_additive"),
      ("description_string", JVal.jstr "+%s1 health")] "description_string"
      = some (JVal.jstr "+%s1 health") ∧
    get_description_formatted
      [("value", jint 25), ("description_format", JVal.jstr "value_is_additive"),
       ("description_string", JVal.jstr "+%s1 health")]
      = some (some (pyReplace "+%s1 health" "%s1" "25")) :=
  ⟨by decide,
   (c5_description_formatted_amended _).1 "+%s1 health" "25" (by decide) (by decide) (by decide)⟩

/-- C6: counterexample — an attribute whose value is the non-numeric
string "a" makes `int()` raise `ValueError`, which the constructor's
`except TypeError` does not catch, so construction raises (`none`). -/
theorem c6_attr_init_counterexample :
    item_attribute_init [("value", JVal.jstr "a")] = none :=
  by decide

/-- C6 (amended): the construction-time normalizations are skipped
silently — and construction never raises — when the attribute's value is
absent or `None` (where `int()` raises the caught `TypeError`); but a
non-numeric string value raises an uncaught `ValueError`. -/
theorem c6_attr_init_amended (a : Rec) :
    (Rec.get a "value" = none → item_attribute_init a = some a) ∧
    (Rec.get a "value" = some JVal.jnull → item_attribute_init a = some a) ∧
    (∀ st, Rec.get a "value" = some (JVal.jstr st) → pyParseInt st = none →
      item_attribute_init a = none) := by
  refine ⟨fun h => ?_, fun h => ?_, fun st hs hp => ?_⟩
  · simp [item_attribute_init, h, pyInt]
  · simp [item_attribute_init, h, pyInt]
  · simp [item_attribute_init, hs, pyInt, hp]

/-- Witness for C6 (amended) on a record without a value. -/
theorem c6_attr_init_amended_witness :
    Rec.get [("name", JVal.jstr "mystery")] "value" = none ∧
    item_attribute_init [("name", JVal.jstr "mystery")] = some [("name", JVal.jstr "mystery")] :=
  ⟨by decide, (c6_attr_init_amended _).1 (by decide)⟩

/-- C9: counterexample — an item with styles ["A", "B"] and style index 0
returns nothing (`if styleid:` treats the index 0 as falsy) instead of
the style name "A" at index 0 as the claim states. -/
theorem c9_style_counterexample :
    get_current_style_name
      ⟨⟨[("style", jint 0)], none, none⟩,
       ⟨[], none, some [[("name", JVal.jstr "A")], [("name", JVal.jstr "B")]]⟩⟩
      = some none ∧
    some (Option.none (α := JVal)) ≠ some (some (JVal.jstr "A")) :=
  ⟨by decide, by decide⟩

/-- C9 (amended): for an item whose styles resolve and whose instance
carries a NONZERO integer style index, the style name at that index is
returned (Python indexing, negative indices counting from the end) and an
index on which indexing fails returns the raw index value; a zero style
index returns nothing. -/
theorem c9_style_amended (it : Item) (names : List JVal) (i : Int)
    (hstyles : get_styles it = some names)
    (hid : Rec.get it._item.fields "style" = some (jint i)) :
    get_current_style_name it =
      (if i = 0 then some none
       else
         match pyIndex names i with
         | some nm => some (some nm)
         | none => some (some (jint i))) := by
  unfold get_current_style_name get_current_style_id
  rw [hid]
  by_cases hi : i = 0
  · simp [hi, jtruthy, jint, PyNum.ofInt]
  · cases hpi : pyIndex names i <;>
      simp [hi, jtruthy, jint, PyNum.ofInt, hstyles, hpi]

/-- Witness for C9 (amended): styles ["A", "B"], index 1 gives "B". -/
theorem c9_style_amended_witness :
    get_styles
      ⟨⟨[("style", jint 1)], none, none⟩,
       ⟨[], none, some [[("name", JVal.jstr "A")], [("name", JVal.jstr "B")]]⟩⟩
      = some [JVal.jstr "A", JVal.jstr "B"] ∧
    get_current_style_name
      ⟨⟨[("style", jint 1)], none, none⟩,
       ⟨[], none, some [[("name", JVal.jstr "A")], [("name", JVal.jstr "B")]]⟩⟩
      = some (some (JVal.jstr "B")) := by
  constructor
  · decide
  · have h := c9_style_amended
      ⟨⟨[("style", jint 1)], none, none⟩,
       ⟨[], none, some [[("name", JVal.jstr "A")], [("name", JVal.jstr "B")]]⟩⟩
      [JVal.jstr "A", JVal.jstr "B"] 1 (by decide) (by decide)
    rw [h]
    decide

/-- C4: counterexample — a name-prefixed item whose name "Axe The Great"
does not BEGIN with "The " but contains it is still mangled: the code
tests `item_name.find("The ") != -1` (occurrence anywhere) and then drops
the first four characters, yielding "The Great" instead of the unchanged
"Axe The Great" the claim requires. -/
theorem c4_name_counterexample :
    get_full_item_name
      ⟨[], [], [], [(jint 0, [("id", jint 0), ("str", JVal.jstr "unique"),
        ("prettystr", JVal.jstr "Unique")])], "en"⟩
      ⟨⟨[("item_name", JVal.jstr "Axe The Great"), ("proper_name", JVal.jbool true)], none, none⟩,
       ⟨[("item_name", JVal.jstr "Axe The Great"), ("proper_name", JVal.jbool true)], none, none⟩⟩
      none
      = some "The Great" ∧
    some ("The Great" : String) ≠ some ("Axe The Great" : String) :=
  ⟨by decide, by decide⟩

/-- C4 (amended): with prefixes suppressed (`None`), no custom name and a
string item name, `get_full_item_name` returns the name with its first
FOUR CHARACTERS dropped if and only if the item is name-prefixed and the
name CONTAINS "The " anywhere (not only as a leading prefix); otherwise
the name is returned unchanged. -/
theorem c4_name_amended (s : Schema) (it : Item) (n : String) (qs ps : JVal)
    (hn : Rec.get it._schema_item.fields "item_name" = some (JVal.jstr n))
    (hc : Rec.get it._item.fields "custom_name" = none)
    (hqs : Rec.get (get_quality s it) "str" = some qs)
    (hps : Rec.get (get_quality s it) "prettystr" = some ps) :
    get_full_item_name s it none =
      some (if strFindB n "The " && is_name_prefixed it then pyDrop n 4 else n) := by
  simp only [get_full_item_name, hn, hc, hqs, hps, get_custom_name, asString, jtruthy,
    Option.bind, bind, pure, Option.isNone, Option.getD_none, Option.getD_some]
  simp [jtruthy]

/-- Witness for C4 (amended): definition name "The Axe", name-prefixed,
quality "unique", language "en", no custom name, prefixes suppressed
gives "Axe". -/
theorem c4_name_amended_witness :
    Rec.get (⟨[("item_name", JVal.jstr "The Axe"), ("proper_name", JVal.jbool true)], none,
        none⟩ : RawItem).fields "item_name" = some (JVal.jstr "The Axe") ∧
    get_full_item_name
      ⟨[], [], [], [(jint 0, [("id", jint 0), ("str", JVal.jstr "unique"),
        ("prettystr", JVal.jstr "Unique")])], "en"⟩
      ⟨⟨[("item_name", JVal.jstr "The Axe"), ("proper_name", JVal.jbool true)], none, none⟩,
       ⟨[("item_name", JVal.jstr "The Axe"), ("proper_name", JVal.jbool true)], none, none⟩⟩
      none
      = some "Axe" := by
  constructor
  · decide
  · have h := c4_name_amended
      ⟨[], [], [], [(jint 0, [("id", jint 0), ("str", JVal.jstr "unique"),
        ("prettystr", JVal.jstr "Unique")])], "en"⟩
      ⟨⟨[("item_name", JVal.jstr "The Axe"), ("proper_name", JVal.jbool true)], none, none⟩,
       ⟨[("item_name", JVal.jstr "The Axe"), ("proper_name", JVal.jbool true)], none, none⟩⟩
      "The Axe" (JVal.jstr "unique") (JVal.jstr "Unique")
      (by decide) (by decide) (by decide) (by decide)
    rw [h]
    decide

/-- The claim-side matching predicate: two attribute records share an id
when their `defindex` entries compare equal under Python `==`. -/
def defMatchesB (a i : Rec) : Bool :=
  optValEq (Rec.get a "defindex") (Rec.get i "defindex")

/-- Python equality of two JSON integers is integer equality. -/
theorem pyValEq_jint (k1 k2 : Int) : pyValEq (jint k1) (jint k2) = decide (k1 = k2) := by
  simp [jint, pyValEq, PyNum.numEq, PyNum.ofInt]

/-- Python dict equality is reflexive. -/
theorem Rec.eqv_refl (r : Rec) : Rec.eqv r r = true := by
  simp only [Rec.eqv, List.all_eq_true]
  intro k _
  cases h : Rec.get r k <;> simp [optValEq, pyValEq_refl]

/-- A key with a value is among the record's keys. -/
theorem Rec.get_isSome_mem_keys {r : Rec} {k : String} (h : (Rec.get r k).isSome) :
    k ∈ r.map Prod.fst := by
  unfold Rec.get at h
  cases hf : r.find? (fun p => decide (p.1 = k)) with
  | none => rw [hf] at h; simp at h
  | some p =>
    have hmem := List.mem_of_find?_eq_some hf
    have hp := List.find?_some hf
    simp only [decide_eq_true_eq] at hp
    rw [← hp]
    exact List.mem_map_of_mem Prod.fst hmem

/-- Equal dicts agree (under Python `==`) at every key the first one
holds. -/
theorem Rec.eqv_get {i u : Rec} {k : String} (h : Rec.eqv i u = true)
    (hk : (Rec.get i k).isSome) : optValEq (Rec.get i k) (Rec.get u k) = true := by
  simp only [Rec.eqv, List.all_eq_true] at h
  exact h k (List.mem_append.mpr (Or.inl (Rec.get_isSome_mem_keys hk)))

/-- When every record involved carries a defindex, the inner matching loop
returns the first instance attribute whose defindex compares equal. -/
theorem findMatch_eq (a : Rec) (I : List Rec)
    (ha : (Rec.get a "defindex").isSome)
    (hId : ∀ i ∈ I, (Rec.get i "defindex").isSome) :
    findMatch a I = some (I.find? (fun i => defMatchesB a i)) := by
  induction I with
  | nil => rfl
  | cons i rest ih =>
    obtain ⟨da, hda⟩ := Option.isSome_iff_exists.mp ha
    obtain ⟨di, hdi⟩ := Option.isSome_iff_exists.mp (hId i (List.mem_cons_self i rest))
    have hm : defMatchesB a i = pyValEq da di := by
      simp [defMatchesB, hda, hdi, optValEq]
    rw [List.find?_cons]
    cases hpv : pyValEq da di with
    | true =>
      simp only [findMatch, hda, hdi, hpv, hm, if_true]
    | false =>
      simp only [findMatch, hda, hdi, hpv, hm, if_false]
      exact ih (fun j hj => hId j (List.mem_cons_of_mem i hj))

/-- The first pass of `get_attributes` maps each schema attribute to its
(first-)match merge, and consumes exactly the find?-hits, in order. -/
theorem matchPass_eq (I : List Rec) (S : List Rec)
    (hSd : ∀ a ∈ S, (Rec.get a "defindex").isSome)
    (hId : ∀ i ∈ I, (Rec.get i "defindex").isSome) :
    matchPass I S = some
      (S.map (fun a =>
        match I.find? (fun i => defMatchesB a i) with
        | some i => dictMerge a i
        | none => a),
       S.filterMap (fun a => I.find? (fun i => defMatchesB a i))) := by
  induction S with
  | nil => rfl
  | cons a rest ih =>
    have ha := hSd a (List.mem_cons_self a rest)
    have ihr := ih (fun x hx => hSd x (List.mem_cons_of_mem a hx))
    rw [List.map_cons, List.filterMap_cons]
    cases hf : I.find? (fun i => defMatchesB a i) with
    | some i =>
      simp only [matchPass, findMatch_eq a I ha hId, hf, ihr, Option.bind, bind, pure]
    | none =>
      simp only [matchPass, findMatch_eq a I ha hId, hf, ihr, Option.bind, bind, pure]

/-- With integer defindexes that identify instance attributes uniquely,
an instance attribute is Python-equal to a consumed one exactly when some
schema attribute matches its id. -/
theorem used_any_eq (S I : List Rec)
    (hSd : ∀ a ∈ S, ∃ k : Int, Rec.get a "defindex" = some (jint k))
    (hId : ∀ i ∈ I, ∃ k : Int, Rec.get i "defindex" = some (jint k))
    (hinj : ∀ i ∈ I, ∀ j ∈ I, ∀ k : Int, Rec.get i "defindex" = some (jint k) →
      Rec.get j "defindex" = some (jint k) → i = j)
    (i : Rec) (hi : i ∈ I) :
    (S.filterMap (fun a => I.find? (fun x => defMatchesB a x))).any (fun u => Rec.eqv i u)
      = S.any (fun a => defMatchesB a i) := by
  rw [Bool.eq_iff_iff]
  simp only [List.any_eq_true, List.mem_filterMap]
  constructor
  · rintro ⟨u, ⟨a, haS, hfind⟩, hequv⟩
    refine ⟨a, haS, ?_⟩
    have huI := List.mem_of_find?_eq_some hfind
    have hmu : defMatchesB a u = true := List.find?_some hfind
    obtain ⟨ki, hki⟩ := hId i hi
    obtain ⟨ku, hku⟩ := hId u huI
    have hov := Rec.eqv_get hequv (k := "defindex") (by rw [hki]; rfl)
    rw [hki, hku] at hov
    simp only [optValEq] at hov
    rw [pyValEq_jint] at hov
    have hkk : ki = ku := of_decide_eq_true hov
    subst hkk
    have heq : i = u := hinj i hi u huI ki hki hku
    rw [heq]
    exact hmu
  · rintro ⟨a, haS, hm⟩
    have hsome : (I.find? (fun x => defMatchesB a x)).isSome := by
      rw [List.find?_isSome]
      exact ⟨i, hi, hm⟩
    obtain ⟨u, hfind⟩ := Option.isSome_iff_exists.mp hsome
    have huI := List.mem_of_find?_eq_some hfind
    have hmu : defMatchesB a u = true := List.find?_some hfind
    obtain ⟨ki, hki⟩ := hId i hi
    obtain ⟨ku, hku⟩ := hId u huI
    obtain ⟨ka, hka⟩ := hSd a haS
    rw [defMatchesB, hka, hki] at hm
    rw [defMatchesB, hka, hku] at hmu
    simp only [optValEq] at hm hmu
    rw [pyValEq_jint] at hm hmu
    have h1 : ka = ki := of_decide_eq_true hm
    have h2 : ka = ku := of_decide_eq_true hmu
    have heq : u = i := hinj u huI i hi ka (by rw [hku, h2]) (by rw [hki, h1])
    exact ⟨u, ⟨a, haS, hfind⟩, by rw [heq]; exact Rec.eqv_refl i⟩

/-- Lookup in a merged record: the instance side wins, the catalog side is
the fallback. -/
theorem dictMerge_get (a i : Rec) (k : String) :
    Rec.get (dictMerge a i) k = (Rec.get i k).or (Rec.get a k) := by
  unfold dictMerge Rec.get
  rw [List.find?_append]
  cases h : i.find? (fun p => decide (p.1 = k)) <;> simp [h, Option.or]

/-- The second pass of `get_attributes` keeps exactly the unmatched
instance attributes, in order, each merged over its global definition. -/
theorem secondPass_eq (s : Schema) (S I : List Rec)
    (hSd : ∀ a ∈ S, ∃ k : Int, Rec.get a "defindex" = some (jint k))
    (hId : ∀ i ∈ I, ∃ k : Int, Rec.get i "defindex" = some (jint k))
    (hinj : ∀ i ∈ I, ∀ j ∈ I, ∀ k : Int, Rec.get i "defindex" = some (jint k) →
      Rec.get j "defindex" = some (jint k) → i = j)
    (hglob : ∀ i ∈ I, S.any (fun a => defMatchesB a i) = false →
      ∃ g, (Rec.get i "defindex").bind (fun d => lookupAssoc s.attributes d) = some g) :
    ∀ I' : List Rec, (∀ i ∈ I', i ∈ I) →
    secondPass s (S.filterMap (fun a => I.find? (fun x => defMatchesB a x))) I'
      = some ((I'.filter (fun i => !(S.any (fun a => defMatchesB a i)))).map
          (fun i => dictMerge (((Rec.get i "defindex").bind
            (fun d => lookupAssoc s.attributes d)).getD []) i)) := by
  intro I'
  induction I' with
  | nil => intro _; rfl
  | cons i rest ih =>
    intro hsub
    have hiI := hsub i (List.mem_cons_self i rest)
    have hbridge := used_any_eq S I hSd hId hinj i hiI
    have ihr := ih (fun x hx => hsub x (List.mem_cons_of_mem i hx))
    rw [List.filter_cons]
    cases hany : S.any (fun a => defMatchesB a i) with
    | true =>
      rw [hany] at hbridge
      simp only [secondPass, hbridge, if_true, hany, Bool.not_true, if_false]
      exact ihr
    | false =>
      rw [hany] at hbridge
      obtain ⟨g, hg⟩ := hglob i hiI hany
      obtain ⟨ki, hki⟩ := hId i hiI
      rw [hki] at hg
      simp only [Option.some_bind] at hg
      simp only [secondPass, hbridge, if_false, hki, hg, ihr, Option.bind, bind, pure,
        hany, Bool.not_false, if_true, List.map_cons]
      simp

/-- C1: `get_attributes` merges each catalog override with the instance
override sharing its id — instance fields winning at every key — and the
result lists catalog-matched/merged attributes first in catalog order,
followed by each unmatched instance override merged over its global
attribute definition, in instance order.  The hypotheses state what the
remote schema guarantees: all overrides carry integer defindexes,
instance overrides have pairwise-distinct defindexes, and unmatched
instance overrides resolve in the global attribute table. -/
theorem c1_get_attributes_spec (s : Schema) (it : Item) (S I : List Rec)
    (hS : get_raw_attributes_item s it = some S)
    (hI : (if RawItem.pyEq it._item it._schema_item then [] else (it._item.attributes).getD []) = I)
    (hSd : ∀ a ∈ S, ∃ k : Int, Rec.get a "defindex" = some (jint k))
    (hId : ∀ i ∈ I, ∃ k : Int, Rec.get i "defindex" = some (jint k))
    (hinj : ∀ i ∈ I, ∀ j ∈ I, ∀ k : Int, Rec.get i "defindex" = some (jint k) →
      Rec.get j "defindex" = some (jint k) → i = j)
    (hglob : ∀ i ∈ I, S.any (fun a => defMatchesB a i) = false →
      ∃ g, (Rec.get i "defindex").bind (fun d => lookupAssoc s.attributes d) = some g) :
    get_attributes_recs s it = some (
      (S.map fun a =>
        match I.find? (fun i => defMatchesB a i) with
        | some i => dictMerge a i
        | none => a)
      ++ ((I.filter (fun i => !(S.any (fun a => defMatchesB a i)))).map
          (fun i => dictMerge (((Rec.get i "defindex").bind
            (fun d => lookupAssoc s.attributes d)).getD []) i)))
    ∧ ∀ (a i : Rec) (k : String),
        Rec.get (dictMerge a i) k = (Rec.get i k).or (Rec.get a k) := by
  constructor
  · have hSd' : ∀ a ∈ S, (Rec.get a "defindex").isSome := fun a ha => by
      obtain ⟨k, hk⟩ := hSd a ha; rw [hk]; rfl
    have hId' : ∀ i ∈ I, (Rec.get i "defindex").isSome := fun i hi => by
      obtain ⟨k, hk⟩ := hId i hi; rw [hk]; rfl
    have hmp := matchPass_eq I S hSd' hId'
    have hsp := secondPass_eq s S I hSd hId hinj hglob I (fun _ h => h)
    simp only [get_attributes_recs, hS, hI, hmp, hsp, bind, Option.bind, pure]
  · intro a i k
    exact dictMerge_get a i k

/-- `jint` is injective. -/
theorem jint_inj {k1 k2 : Int} (h : jint k1 = jint k2) : k1 = k2 := by
  simpa [jint, PyNum.ofInt] using h

/-- A concrete catalog for the C1 witness: global attributes 5 ("dmg") and
6 ("spd"), and one item definition declaring a "dmg" override. -/
def c1Schema : Schema :=
  ⟨[(jint 5, [("defindex", jint 5), ("name", JVal.jstr "dmg")]),
    (jint 6, [("defindex", jint 6), ("name", JVal.jstr "spd")])],
   [(JVal.jstr "dmg", jint 5), (JVal.jstr "spd", jint 6)],
   [(jint 1, ⟨[("defindex", jint 1), ("item_name", JVal.jstr "Axe")],
     some [[("name", JVal.jstr "dmg"), ("min_value", jint 0)]], none⟩)],
   [], "en"⟩

/-- A concrete resolved item for the C1 witness: the instance carries
overrides for attributes 5 (matched) and 6 (unmatched). -/
def c1Item : Item :=
  ⟨⟨[("defindex", jint 1)],
    some [[("defindex", jint 5), ("value", jint 3)], [("defindex", jint 6), ("value", jint 2)]],
    none⟩,
   ⟨[("defindex", jint 1), ("item_name", JVal.jstr "Axe")],
    some [[("name", JVal.jstr "dmg"), ("min_value", jint 0)]], none⟩⟩

/-- The catalog-level overrides of `c1Item` (already merged over the
global definitions by `get_raw_attributes_item`). -/
def c1S : List Rec :=
  [[("name", JVal.jstr "dmg"), ("min_value", jint 0), ("defindex", jint 5),
    ("name", JVal.jstr "dmg")]]

/-- The instance-level overrides of `c1Item`. -/
def c1I : List Rec :=
  [[("defindex", jint 5), ("value", jint 3)], [("defindex", jint 6), ("value", jint 2)]]

/-- Witness for C1: the matched pair merges with instance fields winning,
and the unmatched instance override follows, merged over its global
definition; the claim's example merge keeps `min_value` 0 from the
catalog side and `value` 3 from the instance side. -/
theorem c1_get_attributes_spec_witness :
    get_raw_attributes_item c1Schema c1Item = some c1S ∧
    get_attributes_recs c1Schema c1Item = some
      [[("defindex", jint 5), ("value", jint 3), ("name", JVal.jstr "dmg"),
        ("min_value", jint 0), ("defindex", jint 5), ("name", JVal.jstr "dmg")],
       [("defindex", jint 6), ("value", jint 2), ("defindex", jint 6),
        ("name", JVal.jstr "spd")]] ∧
    Rec.get (dictMerge [("defindex", jint 5), ("min_value", jint 0)]
        [("defindex", jint 5), ("value", jint 3)]) "min_value" = some (jint 0) ∧
    Rec.get (dictMerge [("defindex", jint 5), ("min_value", jint 0)]
        [("defindex", jint 5), ("value", jint 3)]) "value" = some (jint 3) := by
  have hId : ∀ i ∈ c1I, ∃ k : Int, Rec.get i "defindex" = some (jint k) := by
    intro i hi
    rcases List.mem_cons.mp hi with h | h
    · exact ⟨5, by rw [h]; decide⟩
    · replace h := List.mem_singleton.mp h
      exact ⟨6, by rw [h]; decide⟩
  have hinj : ∀ i ∈ c1I, ∀ j ∈ c1I, ∀ k : Int, Rec.get i "defindex" = some (jint k) →
      Rec.get j "defindex" = some (jint k) → i = j := by
    intro i hi j hj k hik hjk
    rcases List.mem_cons.mp hi with h | h
    · subst h
      rcases List.mem_cons.mp hj with h' | h'
      · rw [h']
      · replace h' := List.mem_singleton.mp h'
        subst h'
        rw [show Rec.get [("defindex", jint 5), ("value", jint 3)] "defindex"
          = some (jint 5) from by decide] at hik
        rw [show Rec.get [("defindex", jint 6), ("value", jint 2)] "defindex"
          = some (jint 6) from by decide] at hjk
        have h5 := jint_inj (Option.some.inj hik)
        have h6 := jint_inj (Option.some.inj hjk)
        omega
    · replace h := List.mem_singleton.mp h
      subst h
      rcases List.mem_cons.mp hj with h' | h'
      · subst h'
        rw [show Rec.get [("defindex", jint 6), ("value", jint 2)] "defindex"
          = some (jint 6) from by decide] at hik
        rw [show Rec.get [("defindex", jint 5), ("value", jint 3)] "defindex"
          = some (jint 5) from by decide] at hjk
        have h6 := jint_inj (Option.some.inj hik)
        have h5 := jint_inj (Option.some.inj hjk)
        omega
      · replace h' := List.mem_singleton.mp h'
        rw [h']
  have hglob : ∀ i ∈ c1I, (c1S.any (fun a => defMatchesB a i)) = false →
      ∃ g, (Rec.get i "defindex").bind (fun d => lookupAssoc c1Schema.attributes d)
        = some g := by
    intro i hi hany
    rcases List.mem_cons.mp hi with h | h
    · subst h
      exact absurd hany (by decide)
    · replace h := List.mem_singleton.mp h
      subst h
      exact ⟨[("defindex", jint 6), ("name", JVal.jstr "spd")], by decide⟩
  have hSd : ∀ a ∈ c1S, ∃ k : Int, Rec.get a "defindex" = some (jint k) := by
    intro a ha
    replace ha := List.mem_singleton.mp ha
    exact ⟨5, by rw [ha]; decide⟩
  obtain ⟨h1, h2⟩ := c1_get_attributes_spec c1Schema c1Item c1S c1I
    (by decide) (by decide) hSd hId hinj hglob
  refine ⟨by decide, ?_, by decide, by decide⟩
  rw [h1]
  decide
